import Mathlib

/-
Verification of the liveness- and resource-metrics probing engine of the
homelab-monitoring backend (Go).  The Go code is shallowly embedded:

* machine integers become `Nat`/`Int` (with explicit wrap-around modulo
  `2 ^ 64` where Go's `uint64` subtraction can wrap);
* Go `float64` arithmetic is modelled over `ℚ` (the claims under study are
  about exact arithmetic identities and sign guards, not rounding);
* the network, the clock and the container runtime are oracles passed in as
  explicit function arguments, and every network call a code path issues is
  returned as an explicit `NetCall` list, so "no network I/O" is a provable
  statement;
* the nondeterministic completion order of the goroutine fan-out is an
  explicit `order` argument, universally quantified in the theorems;
* the mutable stats cache and the history ring buffer become explicit state
  passed in and returned.
-/

namespace Homelab

/-! ## Data model (src/backend/models/config.go, backend services) -/

/-- Embeds `models.ServiceConfig` (the fields the probing engine reads).
`method` is the declared check method (`GET`, `TCP`, `PING`, ...). -/
structure ServiceConfig where
  id : Nat := 0
  userID : Nat := 0
  name : String := ""
  url : String := ""
  method : String := "GET"
  port : Int := 0
  icon : String := ""
  category : String := ""
  description : String := ""
  isActive : Bool := true
  deriving Repr, DecidableEq

/-- Embeds `services.ServiceStatus`.  Go zero values are the defaults:
`Status` and the numeric fields start at their zero value exactly as a Go
struct literal leaves unnamed fields. `lastCheck` is nanoseconds since epoch. -/
structure ServiceStatus where
  id : Nat := 0
  name : String := ""
  url : String := ""
  icon : String := ""
  category : String := ""
  description : String := ""
  status : String := ""
  statusCode : Nat := 0
  responseTime : Int := 0
  lastCheck : Nat := 0
  isActive : Bool := false
  deriving Repr, DecidableEq

/-- One externally visible network operation issued by a code path.
`tcpConnect` records the dialled address and the dial timeout in
milliseconds; `httpRequest` records method and URL; `icmpExec` records an
invocation of the platform ping utility. -/
inductive NetCall where
  | tcpConnect (addr : String) (timeoutMs : Nat)
  | httpRequest (method : String) (url : String)
  | icmpExec (host : String)
  deriving Repr, DecidableEq

/-- Oracle for the outside world as `checkService` observes it:
`tcpOk addr` is whether `net.DialTimeout("tcp", addr, _)` succeeds,
`reqOK m u` is whether `http.NewRequestWithContext(ctx, m, u, nil)` succeeds
(in Go this depends only on the method string and the URL parse),
`httpResp m u` is the outcome of `httpClient.Do` — `none` is a transport
error, `some c` a response with status code `c`.  `now` is the wall clock in
nanoseconds and `elapsedMs` the measured duration of the probe section. -/
structure NetEnv where
  tcpOk : String → Bool
  reqOK : String → String → Bool
  httpResp : String → String → Option Nat
  now : Nat := 0
  elapsedMs : Int := 0

/-- Embeds `net.JoinHostPort` for the host/port shapes the engine uses. -/
def joinHostPort (host port : String) : String := host ++ ":" ++ port

/-! ## Protocol-dispatch health checker
(`ServiceConfigService.checkService`, src/unnamed/part_003) -/

/-- Embeds the `PING` branch of `checkService`: try the common ports in
sequence with a 500 ms dial timeout, stopping at the first success.  Returns
the resulting status string and the dials actually issued. -/
def tcpPingSweep (tcpOk : String → Bool) (host : String) :
    List String → String × List NetCall
  | [] => ("offline", [])
  | p :: rest =>
    let addr := joinHostPort host p
    if tcpOk addr then ("online", [NetCall.tcpConnect addr 500])
    else
      let r := tcpPingSweep tcpOk host rest
      (r.1, NetCall.tcpConnect addr 500 :: r.2)

/-- Embeds the tail of the default (HTTP) branch of `checkService`: perform
`httpClient.Do` on the already-constructed request and classify.  A transport
error (`none`) is `offline`; a response is classified `online` for
200–399, `error` for 400–499, `offline` otherwise, and the status code and
elapsed time are recorded. -/
def httpProbe (env : NetEnv) (status0 : ServiceStatus) (method url : String) :
    ServiceStatus × List NetCall :=
  match env.httpResp method url with
  | none =>
    ({ status0 with status := "offline", responseTime := env.elapsedMs },
      [NetCall.httpRequest method url])
  | some c =>
    let st :=
      if 200 ≤ c ∧ c < 400 then "online"
      else if 400 ≤ c ∧ c < 500 then "error"
      else "offline"
    ({ status0 with status := st, statusCode := c, responseTime := env.elapsedMs },
      [NetCall.httpRequest method url])

/-- Timeout of the shared `http.Client` built in `NewServiceConfigService`
(`Timeout: 2 * time.Second`). -/
def httpClientTimeoutSeconds : Nat := 2

/-- Whether the shared `http.Client` follows redirects: its `CheckRedirect`
returns `http.ErrUseLastResponse`, i.e. it does not. -/
def httpClientFollowsRedirects : Bool := false

/-- Embeds `ServiceConfigService.checkService`.  Returns the constructed
`ServiceStatus` together with the list of network calls the branch issued.
Mirrors the Go control flow: the inactive early-return happens before the
timer starts (so `responseTime` keeps its zero value), the `TCP`/`PING`
branches dial, and the default branch constructs a `HEAD` request, falls
back to constructing a `GET` request only if that construction fails, and
returns `error` without any network call if both constructions fail (also
before the timer result is stored). -/
def checkService (env : NetEnv) (svc : ServiceConfig) :
    ServiceStatus × List NetCall :=
  let status0 : ServiceStatus :=
    { id := svc.id, name := svc.name, url := svc.url, icon := svc.icon,
      category := svc.category, description := svc.description,
      status := "offline", lastCheck := env.now, isActive := svc.isActive }
  if !svc.isActive then ({ status0 with status := "disabled" }, [])
  else if svc.method = "TCP" then
    let host := if svc.port > 0 then svc.url ++ ":" ++ toString svc.port else svc.url
    let st := if env.tcpOk host then "online" else "offline"
    ({ status0 with status := st, responseTime := env.elapsedMs },
      [NetCall.tcpConnect host 1000])
  else if svc.method = "PING" then
    let r := tcpPingSweep env.tcpOk svc.url ["80", "443", "22"]
    ({ status0 with status := r.1, responseTime := env.elapsedMs }, r.2)
  else if env.reqOK "HEAD" svc.url then
    httpProbe env status0 "HEAD" svc.url
  else if env.reqOK "GET" svc.url then
    httpProbe env status0 "GET" svc.url
  else ({ status0 with status := "error" }, [])

/-! ## Fan-out orchestrator
(`ServiceConfigService.GetServices`, src/unnamed/part_003; the container
batch `DockerService.GetContainers` uses the identical index-addressed
pattern: a pre-sized slice, one goroutine per input writing `result[idx]`,
and a `WaitGroup` join before returning.) -/

/-- One goroutine's effect on the pre-sized result slice: slot `i` is set to
the check result of input `i` (`result[idx] = status`).  An out-of-range
index writes nothing (it cannot arise from the loop). -/
def writeSlot {α β : Type} (body : α → β) (targets : List α)
    (acc : List β) (i : Nat) : List β :=
  match targets[i]? with
  | some t => acc.set i (body t)
  | none => acc

/-- Embeds the fan-out/join skeleton shared by `GetServices` and
`GetContainers`: a slice pre-sized to the number of targets is filled by one
write per target, in an arbitrary completion order, and returned after the
join. -/
def assembleBatch {α β : Type} (dflt : β) (body : α → β)
    (targets : List α) (order : List Nat) : List β :=
  order.foldl (writeSlot body targets) (List.replicate targets.length dflt)

/-- Embeds `ServiceConfigService.GetServices` after the database read: the
live batch over the user's service records, with goroutine completion order
`order`. -/
def GetServices (env : NetEnv) (targets : List ServiceConfig)
    (order : List Nat) : List ServiceStatus :=
  assembleBatch {} (fun t => (checkService env t).1) targets order

/-! ## Container CPU percent (`calculateCPUPercent`, src/unnamed/part_003)
Counters are Docker's cumulative `uint64` readings, embedded as `Nat` with
explicit wrap-around, and `float64` arithmetic is carried out over `ℚ`. -/

/-- Embeds Go `uint64` subtraction `a - b` (wraps modulo `2 ^ 64`) for
operands already reduced below `2 ^ 64`. -/
def wsub64 (a b : Nat) : Nat := (a + 2 ^ 64 - b) % 2 ^ 64

/-- Embeds `types.CPUUsage`: the cumulative total and the per-core array. -/
structure CPUUsageStats where
  totalUsage : Nat := 0
  percpuUsage : List Nat := []
  deriving Repr, DecidableEq

/-- Embeds the `CPUStats` entry of `types.StatsJSON`: container usage,
host-wide `SystemUsage`, and the `OnlineCPUs` field. -/
structure CPUStatsEntry where
  cpuUsage : CPUUsageStats := {}
  systemUsage : Nat := 0
  onlineCPUs : Nat := 0
  deriving Repr, DecidableEq

/-- Embeds the part of `types.StatsJSON` that `calculateCPUPercent` reads:
the current sample and the immediately preceding sample the runtime
returns. -/
structure StatsJSON where
  cpuStats : CPUStatsEntry := {}
  preCPUStats : CPUStatsEntry := {}
  deriving Repr, DecidableEq

/-- Embeds `calculateCPUPercent`: CPU% = (container delta / host delta) ×
online-CPU-count × 100, guarded to 0 unless both deltas are positive, with
the online-CPU count falling back to the per-core array length and then
to 1. -/
def calculateCPUPercent (stats : StatsJSON) : ℚ :=
  let cpuDelta : ℚ :=
    (wsub64 stats.cpuStats.cpuUsage.totalUsage stats.preCPUStats.cpuUsage.totalUsage : Nat)
  let systemDelta : ℚ :=
    (wsub64 stats.cpuStats.systemUsage stats.preCPUStats.systemUsage : Nat)
  if systemDelta > 0 ∧ cpuDelta > 0 then
    let n1 : Nat := stats.cpuStats.onlineCPUs
    let n2 : Nat := if n1 = 0 then stats.cpuStats.cpuUsage.percpuUsage.length else n1
    let numCPUs : ℚ := if n2 = 0 then 1 else (n2 : ℚ)
    cpuDelta / systemDelta * numCPUs * 100
  else 0

/-- The claim's online-CPU fallback chain, written as the spec words it:
the `OnlineCPUs` field, else the per-core usage array length, else 1. -/
def onlineCPUCount (stats : StatsJSON) : Nat :=
  if stats.cpuStats.onlineCPUs ≠ 0 then stats.cpuStats.onlineCPUs
  else if stats.cpuStats.cpuUsage.percpuUsage.length ≠ 0 then
    stats.cpuStats.cpuUsage.percpuUsage.length
  else 1

/-! ## Container stats cache (`DockerService.getCachedStats`,
src/unnamed/part_003).  Timestamps are nanoseconds since epoch; the map
`statsCache` is embedded as a function from container id to optional
entry. -/

/-- Embeds `models.ContainerStats`. -/
structure ContainerStats where
  cpuPercent : ℚ := 0
  memoryUsage : Int := 0
  memoryLimit : Int := 0
  memoryPercent : ℚ := 0
  networkRx : Int := 0
  networkTx : Int := 0
  blockRead : Int := 0
  blockWrite : Int := 0
  pids : Int := 0
  deriving Repr, DecidableEq

/-- Embeds the `cachedStats` cache entry: the stored sample and the time it
was stored. -/
structure cachedStats where
  stats : ContainerStats
  timestamp : Nat
  deriving Repr, DecidableEq

/-- Embeds `statsCacheTTL = 5 * time.Second`, in nanoseconds. -/
def statsCacheTTL : Nat := 5 * 1000000000

/-- Embeds `DockerService.getCachedStats`.  `fetch` is the container
runtime's streamed stats read (`getContainerStats`); the result is the
returned sample, the cache after the call, and the number of runtime reads
issued.  `time.Since(cached.timestamp) < statsCacheTTL` becomes
`now - timestamp < statsCacheTTL` (Go's negative durations for future
timestamps compare below the TTL exactly as the truncated `Nat`
subtraction does).  A stale or missing entry is overwritten wholesale with
the fresh sample and the current time. -/
def getCachedStats (fetch : String → ContainerStats) (now : Nat)
    (cache : String → Option cachedStats) (id : String) :
    ContainerStats × (String → Option cachedStats) × Nat :=
  match cache id with
  | some cached =>
    if now - cached.timestamp < statsCacheTTL then (cached.stats, cache, 0)
    else
      let stats := fetch id
      (stats, fun k => if k = id then some ⟨stats, now⟩ else cache k, 1)
  | none =>
    let stats := fetch id
    (stats, fun k => if k = id then some ⟨stats, now⟩ else cache k, 1)

/-! ## Metrics history ring buffer
(`MetricsService`, src/backend/services/metrics_service.go) -/

/-- Embeds `models.MetricsHistory` (timestamp in nanoseconds, percentages
over `ℚ`). -/
structure MetricsHistory where
  timestamp : Nat := 0
  cpuUsage : ℚ := 0
  memoryUsage : ℚ := 0
  diskUsage : ℚ := 0
  networkIn : Nat := 0
  networkOut : Nat := 0
  deriving Repr, DecidableEq

/-- Embeds `maxHistory := 100` set in `NewMetricsService`. -/
def maxHistory : Nat := 100

/-- Embeds one iteration of `collectHistoryBackground`'s buffer update:
append the new point, then drop the single oldest entry
(`s.history = s.history[1:]`) if the buffer has grown past `maxHistory`. -/
def appendHistory (history : List MetricsHistory) (point : MetricsHistory) :
    List MetricsHistory :=
  let h := history ++ [point]
  if h.length > maxHistory then h.drop 1 else h

/-- Embeds `MetricsService.GetMetricsHistory`.  `limit` is a Go `int` (so it
can be non-positive); the function clamps it to the stored length when it is
non-positive or too large, and copies out the last `limit` points.  The pair
returned is (copied result, buffer after the call): the read leaves the
buffer untouched. -/
def GetMetricsHistory (history : List MetricsHistory) (limit : Int) :
    List MetricsHistory × List MetricsHistory :=
  let l : Int :=
    if limit ≤ 0 ∨ limit > (history.length : Int) then (history.length : Int)
    else limit
  (history.drop (history.length - l.toNat), history)

/-! ## Fast-path batch reads
(`DeviceService.GetDevices`, src/backend/services/device_service.go, and
`ServiceConfigService.GetServicesBasic`, src/unnamed/part_003).  The
relational store is embedded as the list of persisted rows; the
`WHERE user_id = ?` / `ORDER BY` clauses become filter and a stable
mergesort on the display key.  The second component of each result counts
the network calls issued: both fast paths contain none. -/

/-- Embeds `models.Device` (the fields the engine reads; `isOnline` and
`lastSeen` are the persisted last-known-status columns). -/
structure Device where
  id : Nat := 0
  userID : Nat := 0
  name : String := ""
  ip : String := ""
  mac : String := ""
  icon : String := ""
  isOnline : Bool := false
  lastSeen : Option Nat := none
  isActive : Bool := true
  deriving Repr, DecidableEq

/-- Embeds `DeviceService.GetDevices`: the user's device rows ordered by
name, straight from the store, with no probing (zero network calls). -/
def GetDevices (db : List Device) (userID : Nat) : List Device × Nat :=
  ((db.filter (fun d => d.userID == userID)).mergeSort
    (fun a b => decide (a.name ≤ b.name)), 0)

/-- Embeds the per-row projection inside `GetServicesBasic`: the persisted
configuration fields are copied and the status field is the placeholder
`"unknown"` (no status is persisted for services), with the numeric fields
left at their Go zero values. -/
def basicStatus (svc : ServiceConfig) : ServiceStatus :=
  { id := svc.id, name := svc.name, url := svc.url, icon := svc.icon,
    category := svc.category, description := svc.description,
    status := "unknown", isActive := svc.isActive }

/-- The `ORDER BY category ASC, name ASC` display key. -/
def serviceOrderLE (a b : ServiceConfig) : Bool :=
  decide (a.category < b.category ∨ (a.category = b.category ∧ a.name ≤ b.name))

/-- Embeds `ServiceConfigService.GetServicesBasic`: the user's service rows
ordered by category and name, projected by `basicStatus`, with no checking
(zero network calls). -/
def GetServicesBasic (db : List ServiceConfig) (userID : Nat) :
    List ServiceStatus × Nat :=
  (((db.filter (fun s => s.userID == userID)).mergeSort serviceOrderLE).map
    basicStatus, 0)

/-! ## Port-probe primitive
(`DeviceService.pingDeviceFast` and `DeviceService.icmpPing`,
src/backend/services/device_service.go) -/

/-- The fixed heuristic port list of `pingDeviceFast`: common service ports,
camera/NVR ports, and other frequent services. -/
def pingPorts : List String :=
  ["80", "443", "8080", "22", "3389",
   "554", "8000", "8443", "37777", "34567",
   "9000", "5000", "21", "23"]

/-- Embeds `DeviceService.icmpPing`: run the platform ping utility once and
interpret its exit status (`err == nil`) as the boolean result. -/
def icmpPing (pingExitOk : Bool) : Bool := pingExitOk

/-- Embeds `DeviceService.pingDeviceFast`: one concurrent TCP dial per
heuristic port (each with a 300 ms timeout), draining the result channel in
goroutine completion order (`completionOrder`, a permutation of
`pingPorts`) and returning `true` at the first success; only if every port
attempt fails is `icmpPing` invoked, once.  The second component counts the
`icmpPing` invocations. -/
def pingDeviceFast (tcpOk : String → Bool) (pingExitOk : Bool) (ip : String)
    (completionOrder : List String) : Bool × Nat :=
  if completionOrder.any (fun p => tcpOk (joinHostPort ip p)) then (true, 0)
  else (icmpPing pingExitOk, 1)

/-! ## Concrete probe inputs used by witnesses and counterexamples -/

/-- Environment in which nothing on the network answers at all. -/
def envSilent : NetEnv :=
  { tcpOk := fun _ => false, reqOK := fun _ _ => false,
    httpResp := fun _ _ => none, now := 0, elapsedMs := 0 }

/-- An inactive monitored service. -/
def svcInactive : ServiceConfig :=
  { id := 9, name := "jellyfin", url := "http://10.0.0.9:8096", method := "GET",
    isActive := false }

/-- Environment whose server answers every request with status code 404. -/
def envHttp404 : NetEnv :=
  { tcpOk := fun _ => false, reqOK := fun _ _ => true,
    httpResp := fun _ _ => some 404, now := 7, elapsedMs := 12 }

/-- An active default-method (HTTP) service. -/
def svcHttp : ServiceConfig :=
  { id := 1, name := "grafana", url := "http://10.0.0.2:3000", method := "GET" }

/-- An active TCP-method service on an explicit port. -/
def svcTcp : ServiceConfig :=
  { id := 3, name := "ssh", url := "10.0.0.5", method := "TCP", port := 22 }

/-- Environment in which request construction succeeds but every issued
request dies with a transport error (`httpClient.Do` returns an error). -/
def envTransportDown : NetEnv :=
  { tcpOk := fun _ => false, reqOK := fun _ _ => true,
    httpResp := fun _ _ => none, now := 0, elapsedMs := 3 }

/-- Runtime sample with container CPU delta 200 ms, host CPU delta 1000 ms
(nanosecond counters) and 2 online CPUs. -/
def statsSample40 : StatsJSON :=
  { cpuStats :=
      { cpuUsage := { totalUsage := 200000000 },
        systemUsage := 1000000000, onlineCPUs := 2 },
    preCPUStats := {} }

/-- Runtime sample whose host-wide CPU delta is zero. -/
def statsSampleHostZero : StatsJSON :=
  { cpuStats :=
      { cpuUsage := { totalUsage := 400 }, systemUsage := 500, onlineCPUs := 2 },
    preCPUStats := { cpuUsage := { totalUsage := 100 }, systemUsage := 500 } }

/-- A fixed container stats sample stored in the cache witnesses. -/
def sampleStats : ContainerStats := { cpuPercent := 7, memoryUsage := 1024 }

/-- A one-entry stats cache: container `"abc"` stored at t = 0. -/
def cacheOne : String → Option cachedStats :=
  fun k => if k = "abc" then some ⟨sampleStats, 0⟩ else none

/-- Runtime read oracle returning a recognisably fresh sample. -/
def fetchFresh : String → ContainerStats := fun _ => { cpuPercent := 42 }

/-- A full history buffer of `maxHistory` points. -/
def histFull : List MetricsHistory :=
  (List.range maxHistory).map (fun i => { timestamp := i })

/-- A batch of `maxHistory + 5` newer points to append. -/
def histPoints : List MetricsHistory :=
  (List.range (maxHistory + 5)).map (fun i => { timestamp := 1000 + i })

/-- A persisted device row of user 1, last seen online. -/
def devNas : Device :=
  { id := 1, userID := 1, name := "nas", ip := "10.0.0.3", isOnline := true,
    lastSeen := some 12345 }

/-- A persisted device row of another user. -/
def devCam : Device :=
  { id := 2, userID := 2, name := "cam", ip := "10.0.0.4" }

/-- A persisted service row of user 1. -/
def svcMedia : ServiceConfig :=
  { id := 5, userID := 1, name := "plex", url := "http://10.0.0.7:32400",
    category := "media" }

/-- A host that listens on port 443 only. -/
def tcpOk443 : String → Bool := fun a => a == "10.0.0.5:443"

end Homelab

namespace Homelab

/-! ## Theorems -/

/-- C6: for every `ProbeTarget` whose activity flag is false, the health
check returns status `disabled` immediately, issues no network call of any
kind, and records zero latency (`ResponseTime = 0`). -/
theorem inactive_target_disabled_no_network (env : NetEnv) (svc : ServiceConfig)
    (h : svc.isActive = false) :
    (checkService env svc).1.status = "disabled" ∧
    (checkService env svc).1.responseTime = 0 ∧
    (checkService env svc).2 = [] := by
  simp [checkService, h]

/-- Witness for C6 at a concrete inactive service in a silent network. -/
theorem inactive_target_disabled_no_network_witness :
    (checkService envSilent svcInactive).1.status = "disabled" ∧
    (checkService envSilent svcInactive).1.responseTime = 0 ∧
    (checkService envSilent svcInactive).2 = [] :=
  inactive_target_disabled_no_network envSilent svcInactive rfl

/-- C3: for every HTTP-method health check that receives a response, a
status code in 200–399 yields `online`, a code in 400–499 yields `error`,
and any other code (`≤ 199` or `≥ 500`) yields `offline`; a transport error
(no response) yields `offline`. -/
theorem http_status_code_classification (env : NetEnv) (svc : ServiceConfig)
    (hact : svc.isActive = true) (hm1 : svc.method ≠ "TCP")
    (hm2 : svc.method ≠ "PING") (hreq : env.reqOK "HEAD" svc.url = true) :
    (env.httpResp "HEAD" svc.url = none →
      (checkService env svc).1.status = "offline") ∧
    (∀ c, env.httpResp "HEAD" svc.url = some c →
      ((200 ≤ c → c ≤ 399 → (checkService env svc).1.status = "online") ∧
       (400 ≤ c → c ≤ 499 → (checkService env svc).1.status = "error") ∧
       (c ≤ 199 → (checkService env svc).1.status = "offline") ∧
       (500 ≤ c → (checkService env svc).1.status = "offline"))) := by
  constructor
  · intro hnone
    simp [checkService, hact, hm1, hm2, hreq, httpProbe, hnone]
  · intro c hc
    refine ⟨?_, ?_, ?_, ?_⟩
    · intro h1 h2
      have hin : 200 ≤ c ∧ c < 400 := ⟨h1, by omega⟩
      simp [checkService, hact, hm1, hm2, hreq, httpProbe, hc, hin]
    · intro h1 h2
      have hout : ¬(200 ≤ c ∧ c < 400) := by omega
      have hin : 400 ≤ c ∧ c < 500 := ⟨h1, by omega⟩
      simp [checkService, hact, hm1, hm2, hreq, httpProbe, hc, hout, hin]
    · intro h1
      have hout : ¬(200 ≤ c ∧ c < 400) := by omega
      have hout2 : ¬(400 ≤ c ∧ c < 500) := by omega
      simp [checkService, hact, hm1, hm2, hreq, httpProbe, hc, hout, hout2]
    · intro h1
      have hout : ¬(200 ≤ c ∧ c < 400) := by omega
      have hout2 : ¬(400 ≤ c ∧ c < 500) := by omega
      simp [checkService, hact, hm1, hm2, hreq, httpProbe, hc, hout, hout2]

/-- Witness for C3: a concrete 404 response is classified `error`. -/
theorem http_status_code_classification_witness :
    (checkService envHttp404 svcHttp).1.status = "error" := by
  have h := http_status_code_classification envHttp404 svcHttp rfl
    (by decide) (by decide) rfl
  exact (h.2 404 rfl).2.1 (by omega) (by omega)

/-- C7 counterexample: in `envTransportDown` the HEAD request is
constructible (`reqOK` holds) but its transport fails, and the check issues
no GET request at all — the only call is the HEAD, and the outcome is
classified `offline` directly.  The claim's "on a transport error of the
HEAD request the check falls back to issuing a GET request" is therefore
false on this input: the GET fallback in the code triggers only on request
*construction* failure, not on transport failure. -/
theorem head_transport_error_issues_no_get :
    envTransportDown.reqOK "HEAD" svcHttp.url = true ∧
    envTransportDown.httpResp "HEAD" svcHttp.url = none ∧
    (checkService envTransportDown svcHttp).2 =
      [NetCall.httpRequest "HEAD" svcHttp.url] ∧
    ¬ (NetCall.httpRequest "GET" svcHttp.url ∈
        (checkService envTransportDown svcHttp).2) ∧
    (checkService envTransportDown svcHttp).1.status = "offline" := by
  refine ⟨rfl, rfl, ?_, ?_, ?_⟩ <;>
    simp [checkService, envTransportDown, svcHttp, httpProbe]

/-- C7 (amended): every default-method (HTTP) check issues a single `HEAD`
request through the shared client (2-second timeout, redirects not
followed); the fallback to `GET` happens only when *constructing* the HEAD
request fails while constructing the GET request succeeds; when both
constructions fail the check returns `error` with no network call; and a
transport error of the issued HEAD request is classified `offline` directly,
with no fallback request. -/
theorem http_head_probe_construction_fallback (env : NetEnv) (svc : ServiceConfig)
    (hact : svc.isActive = true) (hm1 : svc.method ≠ "TCP")
    (hm2 : svc.method ≠ "PING") :
    httpClientFollowsRedirects = false ∧
    httpClientTimeoutSeconds = 2 ∧
    (env.reqOK "HEAD" svc.url = true →
      (checkService env svc).2 = [NetCall.httpRequest "HEAD" svc.url] ∧
      (env.httpResp "HEAD" svc.url = none →
        (checkService env svc).1.status = "offline")) ∧
    (env.reqOK "HEAD" svc.url = false → env.reqOK "GET" svc.url = true →
      (checkService env svc).2 = [NetCall.httpRequest "GET" svc.url]) ∧
    (env.reqOK "HEAD" svc.url = false → env.reqOK "GET" svc.url = false →
      (checkService env svc).1.status = "error" ∧
      (checkService env svc).2 = []) := by
  refine ⟨rfl, rfl, ?_, ?_, ?_⟩
  · intro hreq
    constructor
    · rcases hresp : env.httpResp "HEAD" svc.url with _ | c <;>
        simp [checkService, hact, hm1, hm2, hreq, httpProbe, hresp]
    · intro hnone
      simp [checkService, hact, hm1, hm2, hreq, httpProbe, hnone]
  · intro hreq1 hreq2
    rcases hresp : env.httpResp "GET" svc.url with _ | c <;>
      simp [checkService, hact, hm1, hm2, hreq1, hreq2, httpProbe, hresp]
  · intro hreq1 hreq2
    simp [checkService, hact, hm1, hm2, hreq1, hreq2]

/-- Witness for the amended C7 at a concrete service whose HEAD request is
issued and dies in transport: the single HEAD call and the `offline`
classification. -/
theorem http_head_probe_construction_fallback_witness :
    (checkService envTransportDown svcHttp).2 =
      [NetCall.httpRequest "HEAD" svcHttp.url] ∧
    (checkService envTransportDown svcHttp).1.status = "offline" := by
  have h := http_head_probe_construction_fallback envTransportDown svcHttp rfl
    (by decide) (by decide)
  exact ⟨(h.2.2.1 rfl).1, (h.2.2.1 rfl).2 rfl⟩

/-- One slot write never changes the length of the result slice. -/
theorem writeSlot_length {α β : Type} (body : α → β) (targets : List α)
    (acc : List β) (i : Nat) :
    (writeSlot body targets acc i).length = acc.length := by
  unfold writeSlot
  rcases targets[i]? <;> simp

/-- Folding slot writes never changes the length of the result slice. -/
theorem foldl_writeSlot_length {α β : Type} (body : α → β) (targets : List α) :
    ∀ (order : List Nat) (acc : List β),
      (order.foldl (writeSlot body targets) acc).length = acc.length := by
  intro order
  induction order with
  | nil => intro acc; rfl
  | cons j rest ih =>
    intro acc
    simpa [writeSlot_length] using ih (writeSlot body targets acc j)

/-- Slots whose index never occurs in the completion order are untouched. -/
theorem foldl_writeSlot_not_mem {α β : Type} (body : α → β) (targets : List α) :
    ∀ (order : List Nat) (acc : List β) (i : Nat), i ∉ order →
      (order.foldl (writeSlot body targets) acc)[i]? = acc[i]? := by
  intro order
  induction order with
  | nil => intro acc i _; rfl
  | cons j rest ih =>
    intro acc i hmem
    have hij : i ≠ j := fun h => hmem (h ▸ List.mem_cons_self j rest)
    have hrest : i ∉ rest := fun h => hmem (List.mem_cons_of_mem j h)
    have := ih (writeSlot body targets acc j) i hrest
    rw [List.foldl_cons, this]
    unfold writeSlot
    rcases targets[j]? <;> simp [List.getElem?_set, hij.symm]

/-- After the join, the slot of every index that occurs in the completion
order holds the check result of that input, independently of where in the
order it completed. -/
theorem foldl_writeSlot_get {α β : Type} (body : α → β) (targets : List α) :
    ∀ (order : List Nat) (acc : List β) (i : Nat),
      acc.length = targets.length → i ∈ order → i < targets.length →
      (order.foldl (writeSlot body targets) acc)[i]? = targets[i]?.map body := by
  intro order
  induction order with
  | nil => intro acc i _ hmem _; exact absurd hmem (List.not_mem_nil i)
  | cons j rest ih =>
    intro acc i hlen hmem hi
    by_cases hrest : i ∈ rest
    · exact ih (writeSlot body targets acc j) i
        ((writeSlot_length body targets acc j).trans hlen) hrest hi
    · have hij : i = j := by
        rcases List.mem_cons.mp hmem with h | h
        · exact h
        · exact absurd h hrest
      subst hij
      rw [List.foldl_cons, foldl_writeSlot_not_mem body targets rest _ i hrest]
      have ht : ∃ t, targets[i]? = some t :=
        ⟨targets.get ⟨i, hi⟩, List.getElem?_eq_getElem hi⟩
      rcases ht with ⟨t, ht⟩
      unfold writeSlot
      rw [ht]
      simp [List.getElem?_set, hlen, hi, ht]

/-- C1: for every input collection of N targets and every goroutine
completion order (any permutation of the indices), the live batch returns a
slice of exactly N results whose entry at index `i` is the check result for
the `i`-th input target — positional ordering, with no target omitted. -/
theorem live_batch_positional_results (env : NetEnv)
    (targets : List ServiceConfig) (order : List Nat)
    (hperm : order.Perm (List.range targets.length)) :
    (GetServices env targets order).length = targets.length ∧
    ∀ i, (hi : i < targets.length) →
      (GetServices env targets order)[i]? =
        some (checkService env (targets.get ⟨i, hi⟩)).1 := by
  constructor
  · simpa [GetServices, assembleBatch] using
      foldl_writeSlot_length (fun t => (checkService env t).1) targets order
        (List.replicate targets.length {})
  · intro i hi
    have hmem : i ∈ order := hperm.mem_iff.mpr (List.mem_range.mpr hi)
    have := foldl_writeSlot_get (fun t => (checkService env t).1) targets order
      (List.replicate targets.length {}) i (by simp) hmem hi
    rw [GetServices, assembleBatch, this, List.getElem?_eq_getElem hi]
    rfl

/-- Witness for C1: a two-target batch whose second goroutine finishes
first (completion order `[1, 0]`) still returns `[result₀, result₁]`. -/
theorem live_batch_positional_results_witness :
    (GetServices envHttp404 [svcHttp, svcTcp] [1, 0]).length = 2 ∧
    (GetServices envHttp404 [svcHttp, svcTcp] [1, 0])[0]? =
      some (checkService envHttp404 svcHttp).1 ∧
    (GetServices envHttp404 [svcHttp, svcTcp] [1, 0])[1]? =
      some (checkService envHttp404 svcTcp).1 := by
  have h := live_batch_positional_results envHttp404 [svcHttp, svcTcp] [1, 0]
    (by decide)
  exact ⟨h.1, h.2 0 (by simp), h.2 1 (by simp)⟩

/-- Under monotone in-range counters, the wrapped `uint64` difference is the
plain difference. -/
theorem wsub64_of_le (a b : Nat) (hba : b ≤ a) (ha : a < 2 ^ 64) :
    wsub64 a b = a - b := by
  unfold wsub64
  omega

/-- C2: container CPU percent equals (container CPU delta / host CPU delta)
× online-CPU-count × 100, is 0 whenever either delta is zero (with monotone
cumulative counters a non-positive delta is exactly a zero delta), is never
negative, and the online-CPU count falls back to the per-core array length
and then to 1 when `OnlineCPUs` is zero. -/
theorem cpu_percent_delta_formula (s : StatsJSON)
    (h1 : s.preCPUStats.cpuUsage.totalUsage ≤ s.cpuStats.cpuUsage.totalUsage)
    (h2 : s.preCPUStats.systemUsage ≤ s.cpuStats.systemUsage)
    (h3 : s.cpuStats.cpuUsage.totalUsage < 2 ^ 64)
    (h4 : s.cpuStats.systemUsage < 2 ^ 64) :
    0 ≤ calculateCPUPercent s ∧
    ((s.cpuStats.cpuUsage.totalUsage - s.preCPUStats.cpuUsage.totalUsage = 0 ∨
      s.cpuStats.systemUsage - s.preCPUStats.systemUsage = 0) →
      calculateCPUPercent s = 0) ∧
    (0 < s.cpuStats.cpuUsage.totalUsage - s.preCPUStats.cpuUsage.totalUsage →
      0 < s.cpuStats.systemUsage - s.preCPUStats.systemUsage →
      calculateCPUPercent s =
        ((s.cpuStats.cpuUsage.totalUsage - s.preCPUStats.cpuUsage.totalUsage : Nat) : ℚ) /
          ((s.cpuStats.systemUsage - s.preCPUStats.systemUsage : Nat) : ℚ) *
          (onlineCPUCount s : ℚ) * 100) := by
  have hw1 : wsub64 s.cpuStats.cpuUsage.totalUsage s.preCPUStats.cpuUsage.totalUsage
      = s.cpuStats.cpuUsage.totalUsage - s.preCPUStats.cpuUsage.totalUsage :=
    wsub64_of_le _ _ h1 h3
  have hw2 : wsub64 s.cpuStats.systemUsage s.preCPUStats.systemUsage
      = s.cpuStats.systemUsage - s.preCPUStats.systemUsage :=
    wsub64_of_le _ _ h2 h4
  refine ⟨?_, ?_, ?_⟩
  · simp only [calculateCPUPercent]
    split_ifs <;> positivity
  · intro h0
    have hfalse :
        ¬((((s.cpuStats.systemUsage - s.preCPUStats.systemUsage : Nat) : ℚ) > 0) ∧
          (((s.cpuStats.cpuUsage.totalUsage -
              s.preCPUStats.cpuUsage.totalUsage : Nat) : ℚ) > 0)) := by
      rintro ⟨hs, hc⟩
      have hs' : 0 < s.cpuStats.systemUsage - s.preCPUStats.systemUsage := by
        exact_mod_cast hs
      have hc' : 0 < s.cpuStats.cpuUsage.totalUsage -
          s.preCPUStats.cpuUsage.totalUsage := by
        exact_mod_cast hc
      rcases h0 with h0 | h0 <;> omega
    simp only [calculateCPUPercent, hw1, hw2]
    rw [if_neg hfalse]
  · intro hcpu hsys
    simp only [calculateCPUPercent, hw1, hw2]
    rw [if_pos ⟨by exact_mod_cast hsys, by exact_mod_cast hcpu⟩]
    have hnum :
        (if (if s.cpuStats.onlineCPUs = 0 then
              s.cpuStats.cpuUsage.percpuUsage.length
            else s.cpuStats.onlineCPUs) = 0 then (1 : ℚ)
          else ((if s.cpuStats.onlineCPUs = 0 then
              s.cpuStats.cpuUsage.percpuUsage.length
            else s.cpuStats.onlineCPUs : Nat) : ℚ)) = (onlineCPUCount s : ℚ) := by
      unfold onlineCPUCount
      split_ifs <;> simp_all
    rw [hnum]

/-- Witness for C2: deltas 200 ms vs 1000 ms with 2 online CPUs give exactly
40, and a zero host-wide delta gives exactly 0. -/
theorem cpu_percent_delta_formula_witness :
    calculateCPUPercent statsSample40 = 40 ∧
    calculateCPUPercent statsSampleHostZero = 0 := by
  constructor
  · have h := (cpu_percent_delta_formula statsSample40 (by decide) (by decide)
      (by decide) (by decide)).2.2 (by decide) (by decide)
    rw [h]
    norm_num [statsSample40, onlineCPUCount]
  · exact (cpu_percent_delta_formula statsSampleHostZero (by decide) (by decide)
      (by decide) (by decide)).2.1 (Or.inr (by decide))

/-- C4: a stats read that finds a cache entry younger than the 5-second TTL
returns the stored sample unchanged with no runtime call; a read finding no
entry, or an entry at or past the TTL, issues exactly one runtime read and
replaces (never merges) the cache entry with the fresh sample and the
current timestamp, leaving every other container's entry untouched. -/
theorem stats_cache_ttl_read (fetch : String → ContainerStats) (now : Nat)
    (cache : String → Option cachedStats) (id : String) :
    statsCacheTTL = 5 * 1000000000 ∧
    (∀ e, cache id = some e → now - e.timestamp < statsCacheTTL →
      getCachedStats fetch now cache id = (e.stats, cache, 0)) ∧
    (cache id = none →
      (getCachedStats fetch now cache id).1 = fetch id ∧
      (getCachedStats fetch now cache id).2.2 = 1 ∧
      (getCachedStats fetch now cache id).2.1 id = some ⟨fetch id, now⟩ ∧
      ∀ k, k ≠ id → (getCachedStats fetch now cache id).2.1 k = cache k) ∧
    (∀ e, cache id = some e → statsCacheTTL ≤ now - e.timestamp →
      (getCachedStats fetch now cache id).1 = fetch id ∧
      (getCachedStats fetch now cache id).2.2 = 1 ∧
      (getCachedStats fetch now cache id).2.1 id = some ⟨fetch id, now⟩ ∧
      ∀ k, k ≠ id → (getCachedStats fetch now cache id).2.1 k = cache k) := by
  refine ⟨rfl, ?_, ?_, ?_⟩
  · intro e he hfresh
    simp [getCachedStats, he, hfresh]
  · intro hnone
    refine ⟨by simp [getCachedStats, hnone], by simp [getCachedStats, hnone],
      by simp [getCachedStats, hnone], ?_⟩
    intro k hk
    simp [getCachedStats, hnone, hk]
  · intro e he hstale
    have hnf : ¬(now - e.timestamp < statsCacheTTL) := not_lt.mpr hstale
    refine ⟨by simp [getCachedStats, he, hnf], by simp [getCachedStats, he, hnf],
      by simp [getCachedStats, he, hnf], ?_⟩
    intro k hk
    simp [getCachedStats, he, hnf, hk]

/-- Witness for C4: at t = TTL − 1 ns the cached sample comes back with no
runtime read; at t = TTL the read is fresh, counted, and the entry is
replaced with the new sample and timestamp. -/
theorem stats_cache_ttl_read_witness :
    getCachedStats fetchFresh 4999999999 cacheOne "abc" = (sampleStats, cacheOne, 0) ∧
    (getCachedStats fetchFresh 5000000000 cacheOne "abc").1 = fetchFresh "abc" ∧
    (getCachedStats fetchFresh 5000000000 cacheOne "abc").2.2 = 1 ∧
    (getCachedStats fetchFresh 5000000000 cacheOne "abc").2.1 "abc" =
      some ⟨fetchFresh "abc", 5000000000⟩ := by
  have h1 := (stats_cache_ttl_read fetchFresh 4999999999 cacheOne "abc").2.1
    ⟨sampleStats, 0⟩ (by simp [cacheOne]) (by norm_num [statsCacheTTL])
  have h2 := (stats_cache_ttl_read fetchFresh 5000000000 cacheOne "abc").2.2.2
    ⟨sampleStats, 0⟩ (by simp [cacheOne]) (by norm_num [statsCacheTTL])
  exact ⟨h1, h2.1, h2.2.1, h2.2.2.1⟩

/-- One sampler iteration in closed form: append, then evict the single
oldest entry exactly when the buffer has outgrown `maxHistory`. -/
theorem appendHistory_eq (h : List MetricsHistory) (p : MetricsHistory) :
    appendHistory h p =
      if maxHistory < h.length + 1 then (h ++ [p]).drop 1 else h ++ [p] := by
  simp [appendHistory]

/-- Folding sampler iterations over a buffer within capacity keeps, of the
concatenated stream of points, exactly the newest `maxHistory`-bounded
suffix. -/
theorem foldl_appendHistory (ps : List MetricsHistory) :
    ∀ h : List MetricsHistory, h.length ≤ maxHistory →
      ps.foldl appendHistory h =
        (h ++ ps).drop (h.length + ps.length - maxHistory) := by
  induction ps with
  | nil =>
    intro h hle
    simp [Nat.sub_eq_zero_of_le hle]
  | cons p rest ih =>
    intro h hle
    rw [List.foldl_cons, appendHistory_eq]
    by_cases hfull : maxHistory < h.length + 1
    · rw [if_pos hfull]
      have hlen : ((h ++ [p]).drop 1).length ≤ maxHistory := by
        simp
        omega
      rw [ih _ hlen]
      have e0 : 1 ≤ (h ++ [p]).length := by simp
      have e1 : (h ++ [p]).drop 1 ++ rest = (h ++ p :: rest).drop 1 := by
        rw [show h ++ p :: rest = (h ++ [p]) ++ rest by simp]
        exact (List.drop_append_of_le_length e0).symm
      rw [e1, List.drop_drop]
      have harith : 1 + (((h ++ [p]).drop 1).length + rest.length - maxHistory)
          = h.length + (p :: rest).length - maxHistory := by
        simp only [List.length_drop, List.length_append, List.length_cons,
          List.length_singleton, List.length_nil]
        omega
      rw [harith]
    · rw [if_neg hfull]
      have hlen : (h ++ [p]).length ≤ maxHistory := by
        simp
        omega
      rw [ih _ hlen]
      have e1 : h ++ [p] ++ rest = h ++ p :: rest := by
        rw [List.append_assoc, List.singleton_append]
      rw [e1]
      have harith : (h ++ [p]).length + rest.length - maxHistory
          = h.length + (p :: rest).length - maxHistory := by
        simp only [List.length_append, List.length_cons, List.length_singleton,
          List.length_nil]
        omega
      rw [harith]

/-- C5: the history buffer never exceeds `maxHistory` (= 100) entries and
evicts oldest-first: appending `maxHistory + 5` points to a full buffer
leaves exactly `maxHistory` points — the newest `maxHistory` appended
points in order, ending with the 5 most recent insertions — and the read
accessor returns the last `min(requested, available)` points as an
oldest-first suffix without mutating the buffer. -/
theorem history_ring_buffer_bound :
    (∀ (h : List MetricsHistory) (p : MetricsHistory),
      h.length ≤ maxHistory → (appendHistory h p).length ≤ maxHistory) ∧
    (∀ (h ps : List MetricsHistory), h.length = maxHistory →
      ps.length = maxHistory + 5 →
      (ps.foldl appendHistory h).length = maxHistory ∧
      ps.foldl appendHistory h = ps.drop 5 ∧
      (ps.foldl appendHistory h).drop (maxHistory - 5) = ps.drop maxHistory) ∧
    (∀ (h : List MetricsHistory) (limit : Int), 1 ≤ limit →
      (GetMetricsHistory h limit).1.length = min limit.toNat h.length ∧
      (GetMetricsHistory h limit).1 = h.drop (h.length - limit.toNat) ∧
      (GetMetricsHistory h limit).2 = h) := by
  refine ⟨?_, ?_, ?_⟩
  · intro h p hle
    rw [appendHistory_eq]
    split_ifs with hfull <;> simp <;> omega
  · intro h ps hlen hpts
    have hclosed := foldl_appendHistory ps h (le_of_eq hlen)
    have hdrop : (h ++ ps).drop (h.length + ps.length - maxHistory) = ps.drop 5 := by
      have h5 : h.length + ps.length - maxHistory = h.length + 5 := by omega
      rw [h5]
      exact List.drop_append 5
    refine ⟨?_, hclosed.trans hdrop, ?_⟩
    · rw [hclosed.trans hdrop]
      simp
      omega
    · rw [hclosed.trans hdrop, List.drop_drop]
      have h100 : 5 + (maxHistory - 5) = maxHistory := by norm_num [maxHistory]
      rw [h100]
  · intro h limit hpos
    unfold GetMetricsHistory
    by_cases hgt : limit > (h.length : Int)
    · have hcond : limit ≤ 0 ∨ limit > (h.length : Int) := Or.inr hgt
      rw [if_pos hcond]
      refine ⟨?_, ?_, rfl⟩
      · simp
        omega
      · have h0 : h.length - limit.toNat = 0 := by omega
        simp [h0]
    · have hcond : ¬(limit ≤ 0 ∨ limit > (h.length : Int)) := by omega
      rw [if_neg hcond]
      refine ⟨?_, rfl, rfl⟩
      simp
      omega

/-- Witness for C5: a concrete full buffer of 100 points, 105 appended
points, and a size-10 read. -/
theorem history_ring_buffer_bound_witness :
    (histPoints.foldl appendHistory histFull).length = maxHistory ∧
    histPoints.foldl appendHistory histFull = histPoints.drop 5 ∧
    (GetMetricsHistory histFull 10).1.length = 10 := by
  have h2 := history_ring_buffer_bound.2.1 histFull histPoints
    (by simp [histFull]) (by simp [histPoints])
  have h3 := history_ring_buffer_bound.2.2 histFull 10 (by norm_num)
  refine ⟨h2.1, h2.2.1, ?_⟩
  rw [h3.1]
  simp [histFull, maxHistory]

/-- C10: a requested limit that is non-positive or exceeds the stored
length returns the entire stored history (oldest-first); a limit between 1
and the stored length returns exactly `limit` points (the newest ones,
oldest-first). -/
theorem get_metrics_history_limit (h : List MetricsHistory) (limit : Int) :
    ((limit ≤ 0 ∨ (h.length : Int) < limit) → (GetMetricsHistory h limit).1 = h) ∧
    (1 ≤ limit → limit ≤ (h.length : Int) →
      (GetMetricsHistory h limit).1.length = limit.toNat ∧
      (GetMetricsHistory h limit).1 = h.drop (h.length - limit.toNat)) := by
  constructor
  · intro hcond
    unfold GetMetricsHistory
    rw [if_pos (by omega)]
    simp
  · intro h1 h2
    unfold GetMetricsHistory
    rw [if_neg (by omega)]
    refine ⟨?_, rfl⟩
    simp
    omega

/-- Witness for C10: limits 0, −3 and 200 on a 100-point buffer return all
100 points; limit 7 returns exactly 7 points. -/
theorem get_metrics_history_limit_witness :
    (GetMetricsHistory histFull 0).1 = histFull ∧
    (GetMetricsHistory histFull (-3)).1 = histFull ∧
    (GetMetricsHistory histFull 200).1 = histFull ∧
    (GetMetricsHistory histFull 7).1.length = 7 := by
  refine ⟨(get_metrics_history_limit histFull 0).1 (Or.inl (by norm_num)),
    (get_metrics_history_limit histFull (-3)).1 (Or.inl (by norm_num)),
    (get_metrics_history_limit histFull 200).1
      (Or.inr (by simp [histFull, maxHistory])), ?_⟩
  have h := (get_metrics_history_limit histFull 7).2 (by norm_num)
    (by simp [histFull, maxHistory])
  simpa using h.1

/-- C8: the fast-path batch reads issue zero network calls; `GetDevices`
returns exactly the user's persisted device rows (so each carries its
last-persisted `isOnline`/`lastSeen` status), `GetServicesBasic` returns
exactly the user's persisted service rows projected with the placeholder
status `"unknown"` (no status is persisted for services), and — both being
functions of the stored state alone — two calls with no intervening state
change return identical result sets. -/
theorem fast_path_persisted_status (db : List Device)
    (sdb : List ServiceConfig) (uid : Nat) :
    (GetDevices db uid).2 = 0 ∧
    (GetServicesBasic sdb uid).2 = 0 ∧
    (∀ d, d ∈ (GetDevices db uid).1 → d ∈ db ∧ d.userID = uid) ∧
    (∀ d, d ∈ db → d.userID = uid → d ∈ (GetDevices db uid).1) ∧
    (∀ r, r ∈ (GetServicesBasic sdb uid).1 →
      ∃ svc, svc ∈ sdb ∧ svc.userID = uid ∧ r = basicStatus svc ∧
        r.status = "unknown") ∧
    (∀ svc, svc ∈ sdb → svc.userID = uid →
      basicStatus svc ∈ (GetServicesBasic sdb uid).1) ∧
    GetDevices db uid = GetDevices db uid ∧
    GetServicesBasic sdb uid = GetServicesBasic sdb uid := by
  refine ⟨rfl, rfl, ?_, ?_, ?_, ?_, rfl, rfl⟩
  · intro d hd
    rw [GetDevices] at hd
    simp only [List.mem_mergeSort, List.mem_filter, beq_iff_eq] at hd
    exact hd
  · intro d hd hu
    rw [GetDevices]
    simp only [List.mem_mergeSort, List.mem_filter, beq_iff_eq]
    exact ⟨hd, hu⟩
  · intro r hr
    rw [GetServicesBasic] at hr
    simp only [List.mem_map, List.mem_mergeSort, List.mem_filter,
      beq_iff_eq] at hr
    rcases hr with ⟨svc, ⟨hmem, hu⟩, hproj⟩
    exact ⟨svc, hmem, hu, hproj.symm, by rw [← hproj]; rfl⟩
  · intro svc hmem hu
    rw [GetServicesBasic]
    simp only [List.mem_map, List.mem_mergeSort, List.mem_filter, beq_iff_eq]
    exact ⟨svc, ⟨hmem, hu⟩, rfl⟩

/-- Witness for C8 on a concrete two-device, one-service store. -/
theorem fast_path_persisted_status_witness :
    (GetDevices [devNas, devCam] 1).2 = 0 ∧
    devNas ∈ (GetDevices [devNas, devCam] 1).1 ∧
    basicStatus svcMedia ∈ (GetServicesBasic [svcMedia] 1).1 := by
  have h := fast_path_persisted_status [devNas, devCam] [svcMedia] 1
  exact ⟨h.1, h.2.2.2.1 devNas (by simp) rfl,
    h.2.2.2.2.2.1 svcMedia (by simp) rfl⟩

/-- C9: the port probe returns `true` exactly when some heuristic port
accepts the TCP connect — whatever the completion order of the concurrent
attempts — and then never invokes the ping fallback; if and only if every
port attempt fails, the platform ping utility is invoked exactly once and
its exit status is the result.  Each of the 14 ports is attempted exactly
once (no retry). -/
theorem port_probe_first_success (tcpOk : String → Bool) (pingExitOk : Bool)
    (ip : String) (order : List String) (hperm : order.Perm pingPorts) :
    ((∃ p ∈ pingPorts, tcpOk (joinHostPort ip p) = true) →
      pingDeviceFast tcpOk pingExitOk ip order = (true, 0)) ∧
    ((∀ p ∈ pingPorts, tcpOk (joinHostPort ip p) = false) →
      pingDeviceFast tcpOk pingExitOk ip order = (icmpPing pingExitOk, 1)) ∧
    pingPorts.length = 14 ∧
    (∀ p ∈ pingPorts, order.count p = 1) := by
  refine ⟨?_, ?_, rfl, ?_⟩
  · intro hex
    have hany : order.any (fun p => tcpOk (joinHostPort ip p)) = true := by
      rw [List.any_eq_true]
      rcases hex with ⟨p, hp, hok⟩
      exact ⟨p, hperm.mem_iff.mpr hp, hok⟩
    rw [pingDeviceFast, if_pos hany]
  · intro hall
    have hany : order.any (fun p => tcpOk (joinHostPort ip p)) = false := by
      rw [List.any_eq_false]
      intro p hp
      simp [hall p (hperm.mem_iff.mp hp)]
    rw [pingDeviceFast, hany]
    simp
  · have hcount : ∀ p ∈ pingPorts, pingPorts.count p = 1 := by decide
    intro p hp
    rw [hperm.count_eq p]
    exact hcount p hp

/-- Witness for C9: a host listening only on port 443 is reported online
with no ping-utility call; a host answering on no port falls back to one
ping invocation, whose exit status is the result. -/
theorem port_probe_first_success_witness :
    pingDeviceFast tcpOk443 false "10.0.0.5" pingPorts = (true, 0) ∧
    pingDeviceFast (fun _ => false) true "10.0.0.5" pingPorts = (true, 1) ∧
    pingDeviceFast (fun _ => false) false "10.0.0.5" pingPorts = (false, 1) := by
  have h1 := port_probe_first_success tcpOk443 false "10.0.0.5" pingPorts
    (List.Perm.refl _)
  have h2 := port_probe_first_success (fun _ => false) true "10.0.0.5" pingPorts
    (List.Perm.refl _)
  have h3 := port_probe_first_success (fun _ => false) false "10.0.0.5" pingPorts
    (List.Perm.refl _)
  exact ⟨h1.1 ⟨"443", by decide, by decide⟩,
    h2.2.1 (fun p _ => rfl), h3.2.1 (fun p _ => rfl)⟩

end Homelab
